import Mathlib

/-!
Shallow embedding of the core trading logic of
`tradingview-ibkr-auto-bridge` (`src/app.py`): the trade-journal
operations (`log_new_trade`, `update_trade_on_fill`, `close_trade_in_db`,
`get_active_trade`, `get_last_closed_trade`), the signal processor
(`open_position`, `close_position`), and the webhook dispatcher.

Modelling notes, matched line by line against `src/app.py`:
* A journal row (sqlite table `trades`) is the structure `Trade`; rows are
  kept in insertion order in a list, ids assigned from an ascending
  counter, so `ORDER BY id DESC LIMIT 1` is `List.getLast?` of the filter.
* Prices and quantities are modelled as `ℚ` (the code stores the raw JSON
  numbers; no arithmetic is performed on them beyond Python truthiness
  tests, which for a number mean "present and nonzero").
* The IB gateway is modelled by an order-id counter in the state, a trace
  of attempted calls (`GCall`), and a failure oracle `Env`:
  `env oid = true` means the `placeOrder` call that would receive order id
  `oid` raises.  A raised placement propagates out of
  `open_position`/`close_position` (`err = true`), exactly as the Python
  exception does; `cancelOrder` failures are caught and swallowed by the
  source, so a cancel is just recorded in the trace.
-/

namespace Bridge

/-- One row of the `trades` table (schema from `init_db` in `src/app.py`). -/
structure Trade where
  id : Nat
  symbol : String
  signal : String
  positionSize : ℚ
  entryOrderId : Option Nat
  tpOrderId : Option Nat
  entryPrice : Option ℚ
  exitPrice : Option ℚ
  tpPrice : Option ℚ
  tpHit : Bool
  closed : Bool
  slPrice : Option ℚ
  slOrderId : Option Nat
  deriving Repr, DecidableEq

/-- Journal plus gateway-side order-id counter.  `nextId` is the sqlite
autoincrement counter, `nextOrderId` the IB order-id counter. -/
structure St where
  trades : List Trade
  nextId : Nat
  nextOrderId : Nat
  deriving Repr, DecidableEq

def initSt : St := ⟨[], 1, 1⟩

/-- A call issued to the order gateway (`ib.placeOrder` / `ib.cancelOrder`). -/
inductive GCall where
  | placeMarket (forex : Bool) (action : String) (qty : ℚ)
  | placeLimit (forex : Bool) (action : String) (qty : ℚ) (price : ℚ)
  | cancel (orderId : Nat)
  deriving Repr, DecidableEq

/-- Failure oracle for `placeOrder`: `env oid = true` means the placement
that would be assigned order id `oid` raises an exception. -/
abbrev Env := Nat → Bool

/-- Result of a signal-processor call: new state, the gateway calls
attempted, and whether an exception propagated to the caller. -/
structure OpRes where
  st : St
  calls : List GCall
  err : Bool
  deriving Repr, DecidableEq

/-- The normalization `symbol.replace('/', '').upper()` from
`open_position`/`close_position`:
drop every `/` and uppercase each character (written over the character
list so it evaluates by kernel reduction). -/
def normSymbol (s : String) : String :=
  ⟨(s.data.filter (fun c => c != '/')).map Char.toUpper⟩

/-- The test `'/' in symbol` (the instrument-class test choosing `Forex` vs
`Stock`). -/
def hasSlash (s : String) : Bool := s.data.any (fun c => c == '/')

/-- Predicate for `WHERE symbol = ? AND closed = 0`. -/
def isActiveFor (sym : String) (t : Trade) : Bool := t.symbol == sym && !t.closed

/-- Predicate for `WHERE symbol = ? AND closed = 1`. -/
def isClosedFor (sym : String) (t : Trade) : Bool := t.symbol == sym && t.closed

/-- Source `get_active_trade`: the open row for the symbol with the greatest id
(rows are stored in id order, so `ORDER BY id DESC LIMIT 1` is the last
matching element). -/
def get_active_trade (ts : List Trade) (sym : String) : Option Trade :=
  (ts.filter (isActiveFor sym)).getLast?

/-- Source `get_last_closed_trade`: the most recently created closed row. -/
def get_last_closed_trade (ts : List Trade) (sym : String) : Option Trade :=
  (ts.filter (isClosedFor sym)).getLast?

/-- First UPDATE of `update_trade_on_fill`:
`SET entry_price = ? WHERE entry_order_id = ? AND closed = 0`. -/
def entryFillUpd (orderId : Nat) (price : ℚ) (t : Trade) : Trade :=
  if t.entryOrderId == some orderId && !t.closed then
    { t with entryPrice := some price }
  else t

/-- Second UPDATE of `update_trade_on_fill`:
`SET exit_price = ?, closed = 1, tp_hit = 1 WHERE tp_order_id = ? AND closed = 0`. -/
def tpFillUpd (orderId : Nat) (price : ℚ) (t : Trade) : Trade :=
  if t.tpOrderId == some orderId && !t.closed then
    { t with exitPrice := some price, closed := true, tpHit := true }
  else t

/-- Source `update_trade_on_fill`: the two UPDATEs run in sequence. -/
def update_trade_on_fill (ts : List Trade) (orderId : Nat) (price : ℚ) : List Trade :=
  (ts.map (entryFillUpd orderId price)).map (tpFillUpd orderId price)

/-- Source `close_trade_in_db`: `UPDATE trades SET closed = 1 WHERE id = ?`. -/
def close_trade_in_db (ts : List Trade) (tid : Nat) : List Trade :=
  ts.map (fun t => if t.id == tid then { t with closed := true } else t)

/-- The row the INSERT of `log_new_trade` creates: `closed = 0`,
`tp_hit = 0`, entry/exit prices NULL, everything else as passed. -/
def newTradeRow (nid : Nat) (sym signal : String) (size : ℚ)
    (entryOrderId : Option Nat) (tpPrice : Option ℚ) (tpOrderId : Option Nat)
    (slPrice : Option ℚ) (slOrderId : Option Nat) : Trade :=
  { id := nid, symbol := sym, signal := signal, positionSize := size,
    entryOrderId := entryOrderId, tpOrderId := tpOrderId, entryPrice := none,
    exitPrice := none, tpPrice := tpPrice, tpHit := false, closed := false,
    slPrice := slPrice, slOrderId := slOrderId }

/-- Source `log_new_trade`: INSERT a fresh row (note the source passes the raw
`tp`/`sl` arguments as the stored target prices). -/
def log_new_trade (st : St) (sym signal : String) (size : ℚ)
    (entryOrderId : Option Nat) (tpPrice : Option ℚ) (tpOrderId : Option Nat)
    (slPrice : Option ℚ) (slOrderId : Option Nat) : St :=
  { st with
    trades := st.trades ++
      [newTradeRow st.nextId sym signal size entryOrderId tpPrice tpOrderId slPrice slOrderId],
    nextId := st.nextId + 1 }

/-- Python truthiness of an optional JSON number (`if tp:`): present and
nonzero. -/
def truthy (o : Option ℚ) : Bool :=
  match o with
  | some v => v != 0
  | none => false

/-- The choice `'BUY' if side == 'buy' else 'SELL'`. -/
def entryAction (side : String) : String := if side == "buy" then "BUY" else "SELL"

/-- The choice `'SELL' if side == 'buy' else 'BUY'` (used for TP, SL and the closing
market order). -/
def exitAction (side : String) : String := if side == "buy" then "SELL" else "BUY"

/-- LOGIC 1 of `open_position`: the re-entry guard condition
`last_closed and last_closed.get('tp_hit') and last_closed.get('signal') == side`. -/
def guardFires (ts : List Trade) (sym side : String) : Bool :=
  match get_last_closed_trade ts sym with
  | some lc => lc.tpHit && lc.signal == side
  | none => false

/-- Source `close_position` (`src/app.py:197-224`): look up the active trade
(no-op when none), record the cancel attempt for a TP order if present
(failures there are swallowed by the source), submit the opposite market
order — which can raise — and only then mark the row closed in the
journal. -/
def close_position (env : Env) (st : St) (symbol : String) : OpRes :=
  match get_active_trade st.trades (normSymbol symbol) with
  | none => ⟨st, [], false⟩
  | some t =>
    let cancelCalls : List GCall :=
      match t.tpOrderId with
      | some oid => [GCall.cancel oid]
      | none => []
    let closeCalls := cancelCalls ++
      [GCall.placeMarket (hasSlash symbol) (exitAction t.signal) t.positionSize]
    if env st.nextOrderId then ⟨st, closeCalls, true⟩
    else ⟨⟨close_trade_in_db st.trades t.id, st.nextId, st.nextOrderId + 1⟩, closeCalls, false⟩

/-- Result of the optional TP/SL placement block: state, trace so far,
the captured order id (`tp_id` / `sl_id`), and whether the placement
raised. -/
structure LimRes where
  st : St
  calls : List GCall
  oid : Option Nat
  err : Bool
  deriving Repr, DecidableEq

/-- The `if tp:` / `if sl:` blocks of `open_position`: when the target is
truthy, place a resting limit exit order (which can raise) and capture its
id; otherwise do nothing and leave the id `None`. -/
def placeOptLimit (env : Env) (st : St) (calls : List GCall) (forex : Bool)
    (act : String) (qty : ℚ) (o : Option ℚ) : LimRes :=
  if truthy o then
    if env st.nextOrderId then
      ⟨st, calls ++ [GCall.placeLimit forex act qty (Option.getD o 0)], none, true⟩
    else
      ⟨{ st with nextOrderId := st.nextOrderId + 1 },
        calls ++ [GCall.placeLimit forex act qty (Option.getD o 0)],
        some st.nextOrderId, false⟩
  else ⟨st, calls, none, false⟩

/-- The tail of `open_position` from "Place the new entry order" on:
market entry order (can raise), optional TP limit order, optional SL limit
order, and only as the final step the journal INSERT via `log_new_trade`
(note: the raw `tp`/`sl` arguments are stored as the target prices). -/
def openEntry (env : Env) (st : St) (acc : List GCall) (symbol side : String)
    (quantity : ℚ) (tp sl : Option ℚ) : OpRes :=
  if env st.nextOrderId then
    ⟨st, acc ++ [GCall.placeMarket (hasSlash symbol) (entryAction side) quantity], true⟩
  else
    let st1 : St := { st with nextOrderId := st.nextOrderId + 1 }
    let calls1 := acc ++ [GCall.placeMarket (hasSlash symbol) (entryAction side) quantity]
    let r2 := placeOptLimit env st1 calls1 (hasSlash symbol) (exitAction side) quantity tp
    if r2.err then ⟨r2.st, r2.calls, true⟩
    else
      let r3 := placeOptLimit env r2.st r2.calls (hasSlash symbol) (exitAction side) quantity sl
      if r3.err then ⟨r3.st, r3.calls, true⟩
      else
        ⟨log_new_trade r3.st (normSymbol symbol) side quantity (some st.nextOrderId)
          tp r2.oid sl r3.oid, r3.calls, false⟩

/-- Source `open_position` (`src/app.py:135-193`): re-entry guard first, then the
one-trade-at-a-time / reversal logic (a same-side active trade is a no-op;
an opposite-side one is closed via `close_position` first, whose exception
propagates), then the entry/TP/SL placements and the final journal INSERT. -/
def open_position (env : Env) (st : St) (symbol side : String) (quantity : ℚ)
    (tp sl : Option ℚ) : OpRes :=
  if guardFires st.trades (normSymbol symbol) side then ⟨st, [], false⟩
  else
    match get_active_trade st.trades (normSymbol symbol) with
    | some t =>
      if t.signal == side then ⟨st, [], false⟩
      else
        let c := close_position env st symbol
        if c.err then c
        else openEntry env c.st c.calls symbol side quantity tp sl
    | none => openEntry env st [] symbol side quantity tp sl

/-- An inbound webhook message (`request.get_json()`), fields read with
`data.get(...)` so each may be absent. -/
structure Msg where
  action : Option String
  symbol : Option String
  side : Option String
  quantity : Option ℚ
  tp : Option ℚ
  sl : Option ℚ

/-- HTTP outcome of the webhook route: `200 {'status':'success'}` or
`500 {'status':'error', ...}`. -/
inductive Resp where
  | ok200
  | err500
  deriving Repr, DecidableEq

/-- The `/webhook` route (`src/app.py:239-251`): dispatch on `action`;
exceptions inside the try block produce the 500 error response, everything
else — including an action that matches neither branch — falls through to
the 200 success response.  A required field that is absent makes the
open/close call raise (`None` has no `.replace`), modelled as the error
response; no claim depends on that path. -/
def webhook (env : Env) (st : St) (m : Msg) : St × List GCall × Resp :=
  match m.action with
  | some a =>
    if a == "open" then
      match m.symbol, m.side, m.quantity with
      | some s, some sd, some q =>
        let r := open_position env st s sd q m.tp m.sl
        if r.err then (r.st, r.calls, Resp.err500) else (r.st, r.calls, Resp.ok200)
      | _, _, _ => (st, [], Resp.err500)
    else if a == "close" then
      match m.symbol with
      | some s =>
        let r := close_position env st s
        if r.err then (r.st, r.calls, Resp.err500) else (r.st, r.calls, Resp.ok200)
      | none => (st, [], Resp.err500)
    else (st, [], Resp.ok200)
  | none => (st, [], Resp.ok200)

/-- One serially processed event: an Open intent, a Close intent, or a
fill notification (the `onExecDetails` sentry calling
`update_trade_on_fill`). -/
inductive Ev where
  | openI (symbol side : String) (qty : ℚ) (tp sl : Option ℚ)
  | closeI (symbol : String)
  | fill (orderId : Nat) (price : ℚ)

/-- Apply one event to the state (each event carries its own gateway
failure oracle). -/
def step (env : Env) (st : St) (e : Ev) : St :=
  match e with
  | Ev.openI s sd q tp sl => (open_position env st s sd q tp sl).st
  | Ev.closeI s => (close_position env st s).st
  | Ev.fill oid p => { st with trades := update_trade_on_fill st.trades oid p }

/-- Run a serial sequence of events from a state. -/
def runEvents : List (Env × Ev) → St → St
  | [], st => st
  | (env, e) :: rest, st => runEvents rest (step env st e)

/-- States reachable from the empty journal by serial event processing. -/
def Reachable (st : St) : Prop := ∃ l : List (Env × Ev), runEvents l initSt = st

/-- Number of rows with `closed = false` for a symbol. -/
def activeCount (ts : List Trade) (sym : String) : Nat :=
  ts.countP (isActiveFor sym)

/-- Invariant I1: at most one open row per symbol. -/
def I1 (st : St) : Prop := ∀ sym, activeCount st.trades sym ≤ 1

/-! ### Basic lemmas about the journal operations -/

theorem entryFillUpd_closed (oid : Nat) (p : ℚ) (t : Trade) :
    (entryFillUpd oid p t).closed = t.closed := by
  unfold entryFillUpd; split <;> rfl

theorem entryFillUpd_symbol (oid : Nat) (p : ℚ) (t : Trade) :
    (entryFillUpd oid p t).symbol = t.symbol := by
  unfold entryFillUpd; split <;> rfl

theorem entryFillUpd_tpOrderId (oid : Nat) (p : ℚ) (t : Trade) :
    (entryFillUpd oid p t).tpOrderId = t.tpOrderId := by
  unfold entryFillUpd; split <;> rfl

theorem entryFillUpd_entryOrderId (oid : Nat) (p : ℚ) (t : Trade) :
    (entryFillUpd oid p t).entryOrderId = t.entryOrderId := by
  unfold entryFillUpd; split <;> rfl

theorem tpFillUpd_symbol (oid : Nat) (p : ℚ) (t : Trade) :
    (tpFillUpd oid p t).symbol = t.symbol := by
  unfold tpFillUpd; split <;> rfl

theorem tpFillUpd_entryOrderId (oid : Nat) (p : ℚ) (t : Trade) :
    (tpFillUpd oid p t).entryOrderId = t.entryOrderId := by
  unfold tpFillUpd; split <;> rfl

theorem tpFillUpd_tpOrderId (oid : Nat) (p : ℚ) (t : Trade) :
    (tpFillUpd oid p t).tpOrderId = t.tpOrderId := by
  unfold tpFillUpd; split <;> rfl

theorem tpFillUpd_closed_mono (oid : Nat) (p : ℚ) (t : Trade)
    (h : t.closed = true) : (tpFillUpd oid p t).closed = true := by
  unfold tpFillUpd; split <;> simp [h]

/-- A symbol-preserving map that only ever turns `closed` on cannot
increase the number of active rows. -/
theorem activeCount_map_le (f : Trade → Trade) (ts : List Trade) (sym : String)
    (hf : ∀ t, isActiveFor sym (f t) = true → isActiveFor sym t = true) :
    activeCount (ts.map f) sym ≤ activeCount ts sym := by
  unfold activeCount
  rw [List.countP_map]
  exact List.countP_mono_left (fun a _ h => hf a h)

theorem activeCount_update_le (ts : List Trade) (oid : Nat) (p : ℚ) (sym : String) :
    activeCount (update_trade_on_fill ts oid p) sym ≤ activeCount ts sym := by
  unfold update_trade_on_fill
  calc activeCount ((ts.map (entryFillUpd oid p)).map (tpFillUpd oid p)) sym
      ≤ activeCount (ts.map (entryFillUpd oid p)) sym := by
        apply activeCount_map_le
        intro t ht
        unfold isActiveFor at ht ⊢
        unfold tpFillUpd at ht
        revert ht; split <;> simp_all
    _ ≤ activeCount ts sym := by
        apply activeCount_map_le
        intro t ht
        unfold isActiveFor at ht ⊢
        rw [entryFillUpd_symbol, entryFillUpd_closed] at ht
        exact ht

theorem activeCount_close_le (ts : List Trade) (tid : Nat) (sym : String) :
    activeCount (close_trade_in_db ts tid) sym ≤ activeCount ts sym := by
  apply activeCount_map_le
  intro t ht
  unfold isActiveFor at ht ⊢
  revert ht
  split <;> simp_all

theorem activeCount_append_row (ts : List Trade) (r : Trade) (sym : String) :
    activeCount (ts ++ [r]) sym =
      activeCount ts sym + (if isActiveFor sym r then 1 else 0) := by
  unfold activeCount
  rw [List.countP_append]
  simp [List.countP_cons]

theorem get_active_trade_eq_none_iff (ts : List Trade) (sym : String) :
    get_active_trade ts sym = none ↔ activeCount ts sym = 0 := by
  unfold get_active_trade activeCount
  rw [List.getLast?_eq_none_iff, List.countP_eq_length_filter,
    List.length_eq_zero]

/-- A list of length one whose last element is `a` is `[a]`. -/
theorem eq_singleton_of_length_one {α : Type} {l : List α} {a : α}
    (hlen : l.length = 1) (hlast : l.getLast? = some a) : l = [a] := by
  match l with
  | [] => simp at hlen
  | [x] => simp at hlast; simp [hlast]
  | x :: y :: rest => simp at hlen

/-- Closing the unique active row (the one `get_active_trade` returns)
leaves no active row for that symbol. -/
theorem activeCount_close_active (ts : List Trade) (sym : String) (t : Trade)
    (hle : activeCount ts sym ≤ 1)
    (hact : get_active_trade ts sym = some t) :
    activeCount (close_trade_in_db ts t.id) sym = 0 := by
  have hfil : ts.filter (isActiveFor sym) = [t] := by
    apply eq_singleton_of_length_one _ hact
    have hne : ts.filter (isActiveFor sym) ≠ [] := by
      intro h
      unfold get_active_trade at hact
      rw [h] at hact
      simp at hact
    have h1 : 0 < (ts.filter (isActiveFor sym)).length := List.length_pos.mpr hne
    have h2 : (ts.filter (isActiveFor sym)).length ≤ 1 := by
      have h := hle
      unfold activeCount at h
      rw [List.countP_eq_length_filter] at h
      exact h
    omega
  apply List.countP_eq_zero.mpr
  intro r hr hp
  unfold close_trade_in_db at hr
  rcases List.mem_map.mp hr with ⟨r0, hr0, rfl⟩
  by_cases hid : (r0.id == t.id) = true
  · rw [if_pos hid] at hp
    simp [isActiveFor] at hp
  · rw [if_neg hid] at hp
    have hmem : r0 ∈ ts.filter (isActiveFor sym) := List.mem_filter.mpr ⟨hr0, hp⟩
    rw [hfil] at hmem
    simp at hmem
    subst hmem
    simp at hid

/-! ### Shape of the signal-processor operations -/

/-- Operation `close_position` either leaves the journal untouched (no active trade,
or the closing market order raised before the UPDATE) or — on success —
marks exactly the active trade's row closed. -/
theorem close_position_shape (env : Env) (st : St) (symbol : String) :
    ((close_position env st symbol).st.trades = st.trades ∧
      (close_position env st symbol).st.nextId = st.nextId) ∨
    (∃ t, get_active_trade st.trades (normSymbol symbol) = some t ∧
      (close_position env st symbol).err = false ∧
      (close_position env st symbol).st.trades = close_trade_in_db st.trades t.id ∧
      (close_position env st symbol).st.nextId = st.nextId) := by
  unfold close_position
  cases hA : get_active_trade st.trades (normSymbol symbol) with
  | none => left; exact ⟨rfl, rfl⟩
  | some t =>
    by_cases he : env st.nextOrderId = true
    · left; simp [he]
    · right; exact ⟨t, rfl, by simp [he], by simp [he], by simp [he]⟩

/-- When an active trade exists and `close_position` did not raise, it
marked exactly that trade's row closed. -/
theorem close_position_success (env : Env) (st : St) (symbol : String) (t : Trade)
    (hA : get_active_trade st.trades (normSymbol symbol) = some t)
    (hce : (close_position env st symbol).err = false) :
    (close_position env st symbol).st.trades = close_trade_in_db st.trades t.id := by
  unfold close_position at hce ⊢
  rw [hA] at hce ⊢
  dsimp only at hce ⊢
  by_cases he : env st.nextOrderId = true
  · rw [if_pos he] at hce
    cases hce
  · rw [if_neg he]

/-- The three possible outcomes of the optional limit-order block. -/
theorem placeOptLimit_cases (env : Env) (st : St) (calls : List GCall)
    (forex : Bool) (act : String) (qty : ℚ) (o : Option ℚ) :
    placeOptLimit env st calls forex act qty o = ⟨st, calls, none, false⟩ ∨
    (∃ pr, placeOptLimit env st calls forex act qty o =
      ⟨st, calls ++ [GCall.placeLimit forex act qty pr], none, true⟩) ∨
    (∃ pr, placeOptLimit env st calls forex act qty o =
      ⟨{ st with nextOrderId := st.nextOrderId + 1 },
        calls ++ [GCall.placeLimit forex act qty pr], some st.nextOrderId, false⟩) := by
  unfold placeOptLimit
  split
  · split
    · right; left; exact ⟨_, rfl⟩
    · right; right; exact ⟨_, rfl⟩
  · left; rfl

/-- The entry/TP/SL tail of `open_position` either raises with the journal
untouched, or appends exactly one fresh open row (entry order id taken
first, so a TP order id — when present — is strictly larger). -/
theorem openEntry_shape (env : Env) (st : St) (acc : List GCall)
    (symbol side : String) (quantity : ℚ) (tp sl : Option ℚ) :
    ((openEntry env st acc symbol side quantity tp sl).err = true ∧
      (openEntry env st acc symbol side quantity tp sl).st.trades = st.trades ∧
      (openEntry env st acc symbol side quantity tp sl).st.nextId = st.nextId) ∨
    ((openEntry env st acc symbol side quantity tp sl).err = false ∧
      ∃ tpId slId, (tpId = none ∨ tpId = some (st.nextOrderId + 1)) ∧
        (openEntry env st acc symbol side quantity tp sl).st.trades = st.trades ++
          [newTradeRow st.nextId (normSymbol symbol) side quantity
            (some st.nextOrderId) tp tpId sl slId] ∧
        (openEntry env st acc symbol side quantity tp sl).st.nextId = st.nextId + 1) := by
  unfold openEntry
  by_cases h1 : env st.nextOrderId = true
  · rw [if_pos h1]; left; exact ⟨rfl, rfl, rfl⟩
  · rw [if_neg h1]
    dsimp only
    rcases placeOptLimit_cases env { st with nextOrderId := st.nextOrderId + 1 }
        (acc ++ [GCall.placeMarket (hasSlash symbol) (entryAction side) quantity])
        (hasSlash symbol) (exitAction side) quantity tp with h2 | ⟨pr2, h2⟩ | ⟨pr2, h2⟩ <;>
      rw [h2] <;> dsimp only
    · rcases placeOptLimit_cases env { st with nextOrderId := st.nextOrderId + 1 }
          (acc ++ [GCall.placeMarket (hasSlash symbol) (entryAction side) quantity])
          (hasSlash symbol) (exitAction side) quantity sl with h3 | ⟨pr3, h3⟩ | ⟨pr3, h3⟩ <;>
        rw [h3] <;> dsimp only
      · right
        exact ⟨rfl, none, none, Or.inl rfl, by simp [log_new_trade], by simp [log_new_trade]⟩
      · left; exact ⟨rfl, rfl, rfl⟩
      · right
        exact ⟨rfl, none, some (st.nextOrderId + 1), Or.inl rfl,
          by simp [log_new_trade], by simp [log_new_trade]⟩
    · left; exact ⟨rfl, rfl, rfl⟩
    · rcases placeOptLimit_cases env
          { st with nextOrderId := st.nextOrderId + 1 + 1 }
          ((acc ++ [GCall.placeMarket (hasSlash symbol) (entryAction side) quantity]) ++
            [GCall.placeLimit (hasSlash symbol) (exitAction side) quantity pr2])
          (hasSlash symbol) (exitAction side) quantity sl with h3 | ⟨pr3, h3⟩ | ⟨pr3, h3⟩ <;>
        rw [h3] <;> dsimp only
      · right
        exact ⟨rfl, some (st.nextOrderId + 1), none, Or.inr rfl,
          by simp [log_new_trade], by simp [log_new_trade]⟩
      · left; exact ⟨rfl, rfl, rfl⟩
      · right
        exact ⟨rfl, some (st.nextOrderId + 1), some (st.nextOrderId + 1 + 1), Or.inr rfl,
          by simp [log_new_trade], by simp [log_new_trade]⟩

/-- A freshly inserted row is active only for its own symbol. -/
theorem isActiveFor_newTradeRow (s sym signal : String) (nid : Nat) (size : ℚ)
    (eid : Option Nat) (tpP : Option ℚ) (tpI : Option Nat)
    (slP : Option ℚ) (slI : Option Nat) :
    isActiveFor s (newTradeRow nid sym signal size eid tpP tpI slP slI) =
      (sym == s) := by
  simp [isActiveFor, newTradeRow]

/-! ### Invariant I1 preservation and claim C1 -/

theorem close_position_I1 (env : Env) (st : St) (symbol : String) (h : I1 st) :
    I1 (close_position env st symbol).st := by
  rcases close_position_shape env st symbol with ⟨ht, _⟩ | ⟨t, _, _, ht, _⟩
  · intro s; rw [ht]; exact h s
  · intro s; rw [ht]; exact le_trans (activeCount_close_le _ _ _) (h s)

theorem open_position_I1 (env : Env) (st : St) (symbol side : String)
    (q : ℚ) (tp sl : Option ℚ) (h : I1 st) :
    I1 (open_position env st symbol side q tp sl).st := by
  unfold open_position
  by_cases hg : guardFires st.trades (normSymbol symbol) side = true
  · rw [if_pos hg]; exact h
  · rw [if_neg hg]
    cases hA : get_active_trade st.trades (normSymbol symbol) with
    | none =>
      dsimp only
      rcases openEntry_shape env st [] symbol side q tp sl with
        ⟨_, ht, _⟩ | ⟨_, tpId, slId, _, ht, _⟩
      · intro s; rw [ht]; exact h s
      · intro s
        rw [ht, activeCount_append_row, isActiveFor_newTradeRow]
        by_cases hs : normSymbol symbol = s
        · have h0 : activeCount st.trades (normSymbol symbol) = 0 :=
            (get_active_trade_eq_none_iff _ _).mp hA
          rw [← hs, h0]
          simp
        · rw [if_neg (by simp [hs])]
          simpa using h s
    | some t =>
      dsimp only
      by_cases hsame : (t.signal == side) = true
      · rw [if_pos hsame]; exact h
      · rw [if_neg hsame]
        by_cases hce : (close_position env st symbol).err = true
        · rw [if_pos hce]; exact close_position_I1 env st symbol h
        · rw [if_neg hce]
          have hcI1 : I1 (close_position env st symbol).st :=
            close_position_I1 env st symbol h
          rcases openEntry_shape env (close_position env st symbol).st
              (close_position env st symbol).calls symbol side q tp sl with
            ⟨_, ht, _⟩ | ⟨_, tpId, slId, _, ht, _⟩
          · intro s; rw [ht]; exact hcI1 s
          · intro s
            rw [ht, activeCount_append_row, isActiveFor_newTradeRow]
            have hcc : (close_position env st symbol).st.trades =
                close_trade_in_db st.trades t.id :=
              close_position_success env st symbol t hA (by simpa using hce)
            by_cases hs : normSymbol symbol = s
            · rw [← hs, hcc,
                activeCount_close_active st.trades (normSymbol symbol) t (h _) hA]
              simp
            · rw [if_neg (by simp [hs])]
              simpa using hcI1 s

theorem step_I1 (env : Env) (st : St) (e : Ev) (h : I1 st) : I1 (step env st e) := by
  cases e with
  | openI s sd q tp sl => exact open_position_I1 env st s sd q tp sl h
  | closeI s => exact close_position_I1 env st s h
  | fill oid p =>
    intro s
    exact le_trans (activeCount_update_le st.trades oid p s) (h s)

theorem runEvents_I1 (l : List (Env × Ev)) (st : St) (h : I1 st) :
    I1 (runEvents l st) := by
  induction l generalizing st with
  | nil => exact h
  | cons pe rest ih => exact ih (step pe.1 st pe.2) (step_I1 pe.1 st pe.2 h)

/-- C1: for every serial sequence of Open/Close intents and fill events,
at most one journal row per symbol has `closed = false` at every
observation point — `open_position` creates a row only when no same-symbol
active row exists or after first closing the opposite-side active row, and
`close_position` and the take-profit fill path only set `closed` to true. -/
theorem C1_at_most_one_active (l : List (Env × Ev)) (sym : String) :
    activeCount (runEvents l initSt).trades sym ≤ 1 :=
  runEvents_I1 l initSt (fun s => by simp [initSt, activeCount]) sym

/-! ### Claim C4: the re-entry guard -/

/-- C4: when the most recently created closed trade for the normalized
symbol has `tp_hit` set and its side equals the requested side, the open
is rejected: the state is unchanged, no gateway call is made, and no
exception is raised. -/
theorem C4_reentry_block (env : Env) (st : St) (symbol side : String)
    (q : ℚ) (tp sl : Option ℚ) (lc : Trade)
    (hlast : get_last_closed_trade st.trades (normSymbol symbol) = some lc)
    (hhit : lc.tpHit = true) (hside : lc.signal = side) :
    open_position env st symbol side q tp sl = ⟨st, [], false⟩ := by
  have hg : guardFires st.trades (normSymbol symbol) side = true := by
    unfold guardFires
    rw [hlast]
    simp [hhit, hside]
  unfold open_position
  rw [if_pos hg]

/-- The always-succeeding gateway oracle, used by witnesses. -/
def envOk : Env := fun _ => false

/-- Journal state with one closed `EURUSD` buy trade whose take-profit was
hit: an open followed by the fill of its TP order. -/
def wStTpHit : St :=
  runEvents [(envOk, Ev.openI "EUR/USD" "buy" 1000 (some 2) none),
    (envOk, Ev.fill 2 2)] initSt

theorem C4_reentry_block_witness :
    open_position envOk wStTpHit "EUR/USD" "buy" 500 none none =
      ⟨wStTpHit, [], false⟩ :=
  C4_reentry_block envOk wStTpHit "EUR/USD" "buy" 500 none none
    (⟨1, "EURUSD", "buy", 1000, some 1, some 2, none, some 2, some 2,
      true, true, none, none⟩ : Trade)
    (by decide) (by decide) (by decide)

/-! ### Claim C8: duplicate same-side signal is a no-op -/

/-- C8: an Open processed while the active trade for the normalized symbol
has the same side is a no-op — the journal is unchanged, no gateway call
is made, and no exception is raised (hence the second of two identical
Opens leaves everything as the first left it). -/
theorem C8_duplicate_noop (env : Env) (st : St) (symbol side : String)
    (q : ℚ) (tp sl : Option ℚ) (t : Trade)
    (hA : get_active_trade st.trades (normSymbol symbol) = some t)
    (hsame : t.signal = side) :
    open_position env st symbol side q tp sl = ⟨st, [], false⟩ := by
  unfold open_position
  by_cases hg : guardFires st.trades (normSymbol symbol) side = true
  · rw [if_pos hg]
  · rw [if_neg hg, hA]
    dsimp only
    rw [if_pos (by simp [hsame])]

/-- Journal state with one active `EURUSD` buy trade. -/
def wStActiveBuy : St :=
  runEvents [(envOk, Ev.openI "EUR/USD" "buy" 1000 none none)] initSt

theorem C8_duplicate_noop_witness :
    open_position envOk wStActiveBuy "EUR/USD" "buy" 1000 none none =
      ⟨wStActiveBuy, [], false⟩ :=
  C8_duplicate_noop envOk wStActiveBuy "EUR/USD" "buy" 1000 none none
    (newTradeRow 1 "EURUSD" "buy" 1000 (some 1) none none none none)
    (by decide) (by decide)

/-! ### Claims C5, C6, C7: fill reconciliation -/

theorem update_trade_on_fill_length (ts : List Trade) (oid : Nat) (p : ℚ) :
    (update_trade_on_fill ts oid p).length = ts.length := by
  simp [update_trade_on_fill]

theorem update_trade_on_fill_get (ts : List Trade) (oid : Nat) (p : ℚ)
    (i : Nat) (hi : i < ts.length)
    (hi' : i < (update_trade_on_fill ts oid p).length) :
    (update_trade_on_fill ts oid p).get ⟨i, hi'⟩ =
      tpFillUpd oid p (entryFillUpd oid p (ts.get ⟨i, hi⟩)) := by
  simp [update_trade_on_fill]

/-- C5: a fill whose order id is the take-profit order id of an open row
sets that row's exit price, marks it closed, and flags the take-profit as
hit. -/
theorem C5_tp_fill (ts : List Trade) (oid : Nat) (p : ℚ) (i : Nat)
    (hi : i < ts.length)
    (hopen : (ts.get ⟨i, hi⟩).closed = false)
    (hmatch : (ts.get ⟨i, hi⟩).tpOrderId = some oid) :
    ∃ hi' : i < (update_trade_on_fill ts oid p).length,
      ((update_trade_on_fill ts oid p).get ⟨i, hi'⟩).exitPrice = some p ∧
      ((update_trade_on_fill ts oid p).get ⟨i, hi'⟩).closed = true ∧
      ((update_trade_on_fill ts oid p).get ⟨i, hi'⟩).tpHit = true := by
  have hi' : i < (update_trade_on_fill ts oid p).length := by
    rw [update_trade_on_fill_length]; exact hi
  have hg := update_trade_on_fill_get ts oid p i hi hi'
  have hcond : ((entryFillUpd oid p (ts.get ⟨i, hi⟩)).tpOrderId == some oid &&
      !(entryFillUpd oid p (ts.get ⟨i, hi⟩)).closed) = true := by
    rw [entryFillUpd_tpOrderId, entryFillUpd_closed, hopen, hmatch]
    simp
  refine ⟨hi', ?_, ?_, ?_⟩ <;>
    · rw [hg]
      unfold tpFillUpd
      rw [if_pos hcond]

/-- C7: a fill whose order id matches neither the entry order id nor the
take-profit order id of any open row — in particular a stop-loss order id
or an unknown id — mutates no journal row: only entry and take-profit
identifiers are ever matched. -/
theorem C7_unmatched_noop (ts : List Trade) (oid : Nat) (p : ℚ)
    (h : ∀ t ∈ ts, t.closed = false →
      t.entryOrderId ≠ some oid ∧ t.tpOrderId ≠ some oid) :
    update_trade_on_fill ts oid p = ts := by
  unfold update_trade_on_fill
  have h1 : ts.map (entryFillUpd oid p) = ts := by
    conv_rhs => rw [← List.map_id ts]
    apply List.map_congr_left
    intro t ht
    unfold entryFillUpd
    have hc : (t.entryOrderId == some oid && !t.closed) = false := by
      by_cases hcl : t.closed = true
      · simp [hcl]
      · have hne := (h t ht (by revert hcl; cases t.closed <;> simp)).1
        cases hb : (t.entryOrderId == some oid) with
        | false => simp
        | true => exact absurd (eq_of_beq hb) hne
    rw [hc]
    simp
  rw [h1]
  conv_rhs => rw [← List.map_id ts]
  apply List.map_congr_left
  intro t ht
  unfold tpFillUpd
  have hc : (t.tpOrderId == some oid && !t.closed) = false := by
    by_cases hcl : t.closed = true
    · simp [hcl]
    · have hne := (h t ht (by revert hcl; cases t.closed <;> simp)).2
      cases hb : (t.tpOrderId == some oid) with
      | false => simp
      | true => exact absurd (eq_of_beq hb) hne
  rw [hc]
  simp

/-- Journal state with one active `EURUSD` buy trade whose take-profit
order has id 2 (entry order id 1). -/
def wStActiveTp : St :=
  runEvents [(envOk, Ev.openI "EUR/USD" "buy" 1000 (some 2) none)] initSt

theorem C5_tp_fill_witness :
    ∃ hi' : 0 < (update_trade_on_fill wStActiveTp.trades 2 (5/4)).length,
      ((update_trade_on_fill wStActiveTp.trades 2 (5/4)).get ⟨0, hi'⟩).exitPrice = some (5/4) ∧
      ((update_trade_on_fill wStActiveTp.trades 2 (5/4)).get ⟨0, hi'⟩).closed = true ∧
      ((update_trade_on_fill wStActiveTp.trades 2 (5/4)).get ⟨0, hi'⟩).tpHit = true :=
  C5_tp_fill wStActiveTp.trades 2 (5/4) 0 (by decide) (by decide) (by decide)

/-- Journal state with one active `EURUSD` buy trade carrying a stop-loss
order with id 2 (and no take-profit). -/
def wStActiveSl : St :=
  runEvents [(envOk, Ev.openI "EUR/USD" "buy" 1000 none (some 3))] initSt

theorem C7_unmatched_noop_witness :
    (wStActiveSl.trades.map (fun t => t.slOrderId)) = [some 2] ∧
    update_trade_on_fill wStActiveSl.trades 2 3 = wStActiveSl.trades :=
  ⟨by decide, C7_unmatched_noop wStActiveSl.trades 2 3 (by decide)⟩

/-! ### Order-id disjointness (needed for the entry-fill frame property)

Entry order ids and take-profit order ids are assigned from the gateway's
ascending counter (`open_position` places the entry order before the TP
order), so within a row they can never coincide.  This is the "disjoint by
construction" fact the spec appeals to; it holds in every reachable
state. -/

/-- Within each row, the TP order id differs from the entry order id. -/
def Inv2L (ts : List Trade) : Prop :=
  ∀ t ∈ ts, ∀ n : Nat, t.entryOrderId = some n → t.tpOrderId ≠ some n

theorem Inv2L_map (f : Trade → Trade) (ts : List Trade)
    (hf : ∀ t, (f t).entryOrderId = t.entryOrderId ∧ (f t).tpOrderId = t.tpOrderId)
    (h : Inv2L ts) : Inv2L (ts.map f) := by
  intro t ht n hn
  rcases List.mem_map.mp ht with ⟨t0, ht0, rfl⟩
  rw [(hf t0).1] at hn
  rw [(hf t0).2]
  exact h t0 ht0 n hn

theorem Inv2L_update (ts : List Trade) (oid : Nat) (p : ℚ) (h : Inv2L ts) :
    Inv2L (update_trade_on_fill ts oid p) := by
  unfold update_trade_on_fill
  apply Inv2L_map
  · intro t
    exact ⟨tpFillUpd_entryOrderId oid p t, tpFillUpd_tpOrderId oid p t⟩
  · apply Inv2L_map _ _ _ h
    intro t
    exact ⟨entryFillUpd_entryOrderId oid p t, entryFillUpd_tpOrderId oid p t⟩

theorem Inv2L_close (ts : List Trade) (tid : Nat) (h : Inv2L ts) :
    Inv2L (close_trade_in_db ts tid) := by
  apply Inv2L_map _ _ _ h
  intro t
  constructor <;> · dsimp only; split <;> rfl

theorem Inv2L_append (ts : List Trade) (r : Trade) (h : Inv2L ts)
    (hr : ∀ n : Nat, r.entryOrderId = some n → r.tpOrderId ≠ some n) :
    Inv2L (ts ++ [r]) := by
  intro t ht n hn
  rcases List.mem_append.mp ht with ht | ht
  · exact h t ht n hn
  · rw [List.mem_singleton.mp ht] at hn ⊢
    exact hr n hn

theorem open_position_Inv2 (env : Env) (st : St) (symbol side : String)
    (q : ℚ) (tp sl : Option ℚ) (h : Inv2L st.trades) :
    Inv2L (open_position env st symbol side q tp sl).st.trades := by
  unfold open_position
  by_cases hg : guardFires st.trades (normSymbol symbol) side = true
  · rw [if_pos hg]; exact h
  · rw [if_neg hg]
    have hclose : Inv2L (close_position env st symbol).st.trades := by
      rcases close_position_shape env st symbol with ⟨ht, _⟩ | ⟨t, _, _, ht, _⟩
      · rw [ht]; exact h
      · rw [ht]; exact Inv2L_close st.trades t.id h
    have hOE : ∀ st' : St, ∀ acc, Inv2L st'.trades →
        Inv2L (openEntry env st' acc symbol side q tp sl).st.trades := by
      intro st' acc h'
      rcases openEntry_shape env st' acc symbol side q tp sl with
        ⟨_, ht, _⟩ | ⟨_, tpId, slId, htp, ht, _⟩
      · rw [ht]; exact h'
      · rw [ht]
        apply Inv2L_append _ _ h'
        intro n hn
        simp only [newTradeRow] at hn ⊢
        cases hn
        rcases htp with rfl | rfl
        · exact Option.noConfusion
        · intro hc
          have := Option.some.injEq _ _ ▸ hc
          omega
    cases hA : get_active_trade st.trades (normSymbol symbol) with
    | none =>
      dsimp only
      exact hOE st [] h
    | some t =>
      dsimp only
      by_cases hsame : (t.signal == side) = true
      · rw [if_pos hsame]; exact h
      · rw [if_neg hsame]
        by_cases hce : (close_position env st symbol).err = true
        · rw [if_pos hce]; exact hclose
        · rw [if_neg hce]
          exact hOE (close_position env st symbol).st (close_position env st symbol).calls hclose

theorem step_Inv2 (env : Env) (st : St) (e : Ev) (h : Inv2L st.trades) :
    Inv2L (step env st e).trades := by
  cases e with
  | openI s sd q tp sl => exact open_position_Inv2 env st s sd q tp sl h
  | closeI s =>
    rcases close_position_shape env st s with ⟨ht, _⟩ | ⟨t, _, _, ht, _⟩
    · rw [show (step env st (Ev.closeI s)).trades = (close_position env st s).st.trades from rfl, ht]
      exact h
    · rw [show (step env st (Ev.closeI s)).trades = (close_position env st s).st.trades from rfl, ht]
      exact Inv2L_close st.trades t.id h
  | fill oid p => exact Inv2L_update st.trades oid p h

theorem reachable_Inv2 (st : St) (hR : Reachable st) : Inv2L st.trades := by
  obtain ⟨l, rfl⟩ := hR
  have : ∀ st0 : St, Inv2L st0.trades → Inv2L (runEvents l st0).trades := by
    induction l with
    | nil => intro st0 h; exact h
    | cons pe rest ih =>
      intro st0 h
      exact ih (step pe.1 st0 pe.2) (step_Inv2 pe.1 st0 pe.2 h)
  apply this initSt
  intro t ht
  simp [initSt] at ht

/-- C6: a fill whose order id is the entry order id of an open row of a
reachable journal sets that row's entry price and changes nothing else in
the row (the TP-match UPDATE cannot also fire on it, because entry and TP
order ids are disjoint by construction). -/
theorem C6_entry_fill (st : St) (hR : Reachable st) (oid : Nat) (p : ℚ)
    (i : Nat) (hi : i < st.trades.length)
    (hopen : (st.trades.get ⟨i, hi⟩).closed = false)
    (hmatch : (st.trades.get ⟨i, hi⟩).entryOrderId = some oid) :
    ∃ hi' : i < (update_trade_on_fill st.trades oid p).length,
      (update_trade_on_fill st.trades oid p).get ⟨i, hi'⟩ =
        { st.trades.get ⟨i, hi⟩ with entryPrice := some p } := by
  have htp : (st.trades.get ⟨i, hi⟩).tpOrderId ≠ some oid :=
    reachable_Inv2 st hR _ (st.trades.get_mem i hi) oid hmatch
  have hi' : i < (update_trade_on_fill st.trades oid p).length := by
    rw [update_trade_on_fill_length]; exact hi
  refine ⟨hi', ?_⟩
  rw [update_trade_on_fill_get st.trades oid p i hi hi']
  unfold entryFillUpd
  rw [if_pos (by rw [hmatch, hopen]; simp)]
  unfold tpFillUpd
  rw [if_neg (by
    cases hb : ({ st.trades.get ⟨i, hi⟩ with entryPrice := some p }.tpOrderId == some oid) with
    | false => simp
    | true => exact absurd (eq_of_beq hb) htp)]

theorem C6_entry_fill_witness :
    ∃ hi' : 0 < (update_trade_on_fill wStActiveTp.trades 1 (9/8)).length,
      (update_trade_on_fill wStActiveTp.trades 1 (9/8)).get ⟨0, hi'⟩ =
        { wStActiveTp.trades.get ⟨0, by decide⟩ with entryPrice := some (9/8) } :=
  C6_entry_fill wStActiveTp
    ⟨[(envOk, Ev.openI "EUR/USD" "buy" 1000 (some 2) none)], rfl⟩
    1 (9/8) 0 (by decide) (by decide) (by decide)

/-! ### Claim C2: webhook handling of unknown actions -/

/-- A message whose `action` is neither `open` nor `close`. -/
def msgNoop : Msg := ⟨some "noop", some "EURUSD", some "buy", some 1000, none, none⟩

/-- C2 counterexample: the webhook reports plain success (HTTP 200,
`status: success`) for an unknown action — the claim that such a request
is observable to the caller as a distinct failure outcome is false on the
code. -/
theorem C2_counterexample :
    msgNoop.action = some "noop" ∧
    webhook envOk initSt msgNoop = (initSt, [], Resp.ok200) := by
  constructor
  · rfl
  · rfl

/-- C2 amended: a webhook message whose action is neither `open` nor
`close` is silently ignored — no journal change, no gateway call — and the
response is the success outcome, indistinguishable from a processed
intent. -/
theorem C2_unknown_action_success (env : Env) (st : St) (m : Msg)
    (h : ∀ a, m.action = some a → a ≠ "open" ∧ a ≠ "close") :
    webhook env st m = (st, [], Resp.ok200) := by
  unfold webhook
  cases hact : m.action with
  | none => rfl
  | some a =>
    obtain ⟨h1, h2⟩ := h a hact
    dsimp only
    rw [if_neg (by simp [h1]), if_neg (by simp [h2])]

theorem C2_unknown_action_success_witness :
    webhook envOk initSt msgNoop = (initSt, [], Resp.ok200) :=
  C2_unknown_action_success envOk initSt msgNoop (by
    intro a ha
    simp [msgNoop] at ha
    subst ha
    exact ⟨by decide, by decide⟩)

/-! ### Claim C3: reversal -/

/-- When the active trade exists and the closing market order does not
raise, `close_position` computes to: cancel attempt for the TP order if
present, the opposite market order, and the journal UPDATE. -/
theorem close_position_noFail (env : Env) (st : St) (symbol : String) (t : Trade)
    (hEnv : env st.nextOrderId = false)
    (hA : get_active_trade st.trades (normSymbol symbol) = some t) :
    close_position env st symbol =
      ⟨⟨close_trade_in_db st.trades t.id, st.nextId, st.nextOrderId + 1⟩,
        (match t.tpOrderId with
          | some oid => [GCall.cancel oid]
          | none => []) ++
          [GCall.placeMarket (hasSlash symbol) (exitAction t.signal) t.positionSize],
        false⟩ := by
  unfold close_position
  rw [hA]
  dsimp only
  rw [if_neg (by simp [hEnv])]

theorem placeOptLimit_noFail (env : Env) (st : St) (calls : List GCall)
    (forex : Bool) (act : String) (qty : ℚ) (o : Option ℚ)
    (hEnv : ∀ n, env n = false) :
    placeOptLimit env st calls forex act qty o = ⟨st, calls, none, false⟩ ∨
    ∃ pr, placeOptLimit env st calls forex act qty o =
      ⟨{ st with nextOrderId := st.nextOrderId + 1 },
        calls ++ [GCall.placeLimit forex act qty pr], some st.nextOrderId, false⟩ := by
  unfold placeOptLimit
  split
  · rw [if_neg (by simp [hEnv])]
    right; exact ⟨_, rfl⟩
  · left; rfl

/-- With a never-failing gateway, the open tail succeeds: the market entry
order goes out first, and one fresh open row is appended. -/
theorem openEntry_noFail (env : Env) (st : St) (acc : List GCall)
    (symbol side : String) (q : ℚ) (tp sl : Option ℚ)
    (hEnv : ∀ n, env n = false) :
    (openEntry env st acc symbol side q tp sl).err = false ∧
    ∃ tpId slId rest,
      (openEntry env st acc symbol side q tp sl).calls =
        acc ++ [GCall.placeMarket (hasSlash symbol) (entryAction side) q] ++ rest ∧
      (openEntry env st acc symbol side q tp sl).st.trades = st.trades ++
        [newTradeRow st.nextId (normSymbol symbol) side q
          (some st.nextOrderId) tp tpId sl slId] := by
  unfold openEntry
  rw [if_neg (by simp [hEnv])]
  dsimp only
  rcases placeOptLimit_noFail env { st with nextOrderId := st.nextOrderId + 1 }
      (acc ++ [GCall.placeMarket (hasSlash symbol) (entryAction side) q])
      (hasSlash symbol) (exitAction side) q tp hEnv with h2 | ⟨pr2, h2⟩ <;>
    rw [h2] <;> dsimp only
  · rcases placeOptLimit_noFail env { st with nextOrderId := st.nextOrderId + 1 }
        (acc ++ [GCall.placeMarket (hasSlash symbol) (entryAction side) q])
        (hasSlash symbol) (exitAction side) q sl hEnv with h3 | ⟨pr3, h3⟩ <;>
      rw [h3] <;> dsimp only
    · exact ⟨rfl, none, none, [], by simp, by simp [log_new_trade]⟩
    · exact ⟨rfl, none, some (st.nextOrderId + 1),
        [GCall.placeLimit (hasSlash symbol) (exitAction side) q pr3],
        by simp, by simp [log_new_trade]⟩
  · rcases placeOptLimit_noFail env
        { st with nextOrderId := st.nextOrderId + 1 + 1 }
        ((acc ++ [GCall.placeMarket (hasSlash symbol) (entryAction side) q]) ++
          [GCall.placeLimit (hasSlash symbol) (exitAction side) q pr2])
        (hasSlash symbol) (exitAction side) q sl hEnv with h3 | ⟨pr3, h3⟩ <;>
      rw [h3] <;> dsimp only
    · exact ⟨rfl, some (st.nextOrderId + 1), none,
        [GCall.placeLimit (hasSlash symbol) (exitAction side) q pr2],
        by simp, by simp [log_new_trade]⟩
    · exact ⟨rfl, some (st.nextOrderId + 1), some (st.nextOrderId + 1 + 1),
        [GCall.placeLimit (hasSlash symbol) (exitAction side) q pr2,
          GCall.placeLimit (hasSlash symbol) (exitAction side) q pr3],
        by simp, by simp [log_new_trade]⟩

/-- C3: an Open against an opposite-side active trade (guard quiet,
gateway not failing) first runs the Close path — cancel attempt for the
TP order if present, market order opposite the old trade's side, old row
marked closed — then opens the new position: the market order for the
requested side follows, one fresh row is appended, and afterwards exactly
one active row exists for the symbol, carrying the requested side. -/
theorem C3_reversal (env : Env) (st : St) (symbol side : String)
    (q : ℚ) (tp sl : Option ℚ) (t : Trade)
    (hEnv : ∀ n, env n = false)
    (hGuard : guardFires st.trades (normSymbol symbol) side = false)
    (hActive : get_active_trade st.trades (normSymbol symbol) = some t)
    (hOpp : t.signal ≠ side)
    (hI1 : activeCount st.trades (normSymbol symbol) ≤ 1) :
    (open_position env st symbol side q tp sl).err = false ∧
    (∃ rest, (open_position env st symbol side q tp sl).calls =
      (match t.tpOrderId with
        | some oid => [GCall.cancel oid]
        | none => []) ++
      [GCall.placeMarket (hasSlash symbol) (exitAction t.signal) t.positionSize,
        GCall.placeMarket (hasSlash symbol) (entryAction side) q] ++ rest) ∧
    (∃ nrow, (open_position env st symbol side q tp sl).st.trades =
        close_trade_in_db st.trades t.id ++ [nrow] ∧
      nrow.signal = side ∧ nrow.symbol = normSymbol symbol ∧ nrow.closed = false ∧
      get_active_trade (open_position env st symbol side q tp sl).st.trades
        (normSymbol symbol) = some nrow) ∧
    activeCount (open_position env st symbol side q tp sl).st.trades
      (normSymbol symbol) = 1 := by
  have hc := close_position_noFail env st symbol t (hEnv st.nextOrderId) hActive
  have hopen : open_position env st symbol side q tp sl =
      openEntry env ⟨close_trade_in_db st.trades t.id, st.nextId, st.nextOrderId + 1⟩
        ((match t.tpOrderId with
          | some oid => [GCall.cancel oid]
          | none => []) ++
          [GCall.placeMarket (hasSlash symbol) (exitAction t.signal) t.positionSize])
        symbol side q tp sl := by
    unfold open_position
    rw [if_neg (by simp [hGuard]), hActive]
    dsimp only
    rw [if_neg (by simp [hOpp]), hc]
    rfl
  obtain ⟨herr, tpId, slId, rest, hcalls, htr⟩ :=
    openEntry_noFail env ⟨close_trade_in_db st.trades t.id, st.nextId, st.nextOrderId + 1⟩
      ((match t.tpOrderId with
        | some oid => [GCall.cancel oid]
        | none => []) ++
        [GCall.placeMarket (hasSlash symbol) (exitAction t.signal) t.positionSize])
      symbol side q tp sl hEnv
  have hzero : activeCount (close_trade_in_db st.trades t.id) (normSymbol symbol) = 0 :=
    activeCount_close_active st.trades (normSymbol symbol) t hI1 hActive
  have hfilnil : (close_trade_in_db st.trades t.id).filter
      (isActiveFor (normSymbol symbol)) = [] := by
    rw [List.filter_eq_nil_iff]
    exact List.countP_eq_zero.mp hzero
  refine ⟨by rw [hopen]; exact herr, ⟨rest, by rw [hopen, hcalls]; simp⟩, ?_, ?_⟩
  · refine ⟨newTradeRow st.nextId (normSymbol symbol) side q
      (some (st.nextOrderId + 1)) tp tpId sl slId, ?_, rfl, rfl, rfl, ?_⟩
    · rw [hopen, htr]
    · rw [hopen, htr]
      unfold get_active_trade
      rw [List.filter_append, hfilnil]
      simp [isActiveFor, newTradeRow]
  · rw [hopen, htr, activeCount_append_row, hzero, isActiveFor_newTradeRow]
    simp

/-- Journal state with one active `EURUSD` sell trade of size 5. -/
def wStActiveSell : St :=
  runEvents [(envOk, Ev.openI "EUR/USD" "sell" 5 none none)] initSt

theorem C3_reversal_witness :
    (open_position envOk wStActiveSell "EUR/USD" "buy" 3 none none).err = false ∧
    (∃ rest, (open_position envOk wStActiveSell "EUR/USD" "buy" 3 none none).calls =
      (match (newTradeRow 1 "EURUSD" "sell" 5 (some 1) none none none none).tpOrderId with
        | some oid => [GCall.cancel oid]
        | none => []) ++
      [GCall.placeMarket (hasSlash "EUR/USD")
          (exitAction (newTradeRow 1 "EURUSD" "sell" 5 (some 1) none none none none).signal)
          (newTradeRow 1 "EURUSD" "sell" 5 (some 1) none none none none).positionSize,
        GCall.placeMarket (hasSlash "EUR/USD") (entryAction "buy") 3] ++ rest) ∧
    (∃ nrow, (open_position envOk wStActiveSell "EUR/USD" "buy" 3 none none).st.trades =
        close_trade_in_db wStActiveSell.trades
          (newTradeRow 1 "EURUSD" "sell" 5 (some 1) none none none none).id ++ [nrow] ∧
      nrow.signal = "buy" ∧ nrow.symbol = normSymbol "EUR/USD" ∧ nrow.closed = false ∧
      get_active_trade (open_position envOk wStActiveSell "EUR/USD" "buy" 3 none none).st.trades
        (normSymbol "EUR/USD") = some nrow) ∧
    activeCount (open_position envOk wStActiveSell "EUR/USD" "buy" 3 none none).st.trades
      (normSymbol "EUR/USD") = 1 :=
  C3_reversal envOk wStActiveSell "EUR/USD" "buy" 3 none none
    (newTradeRow 1 "EURUSD" "sell" 5 (some 1) none none none none)
    (fun _ => rfl) (by decide) (by decide) (by decide) (by decide)

/-! ### Claim C9: journal state when a placement raises inside the open -/

/-- Gateway oracle that raises exactly on the placement receiving order
id 3. -/
def envFail3 : Env := fun n => n == 3

/-- C9 counterexample: starting from an active sell trade, an opposite
Open whose entry placement raises (after the reversal's close succeeded)
propagates the exception with the journal already modified — the old row
was marked closed — so the journal is not left completely unchanged. -/
theorem C9_counterexample :
    (open_position envFail3 wStActiveSell "EUR/USD" "buy" 3 none none).err = true ∧
    (open_position envFail3 wStActiveSell "EUR/USD" "buy" 3 none none).st.trades ≠
      wStActiveSell.trades := by
  decide

/-- C9 amended: when any placement inside `open_position` raises, no
journal row is ever created (`log_new_trade` is the final step, and the
row counter is untouched); the journal differs from the pre-call state at
most by the reversal's close having marked the old active row closed. -/
theorem C9_no_partial_row (env : Env) (st : St) (symbol side : String)
    (q : ℚ) (tp sl : Option ℚ)
    (herr : (open_position env st symbol side q tp sl).err = true) :
    (open_position env st symbol side q tp sl).st.nextId = st.nextId ∧
    ((open_position env st symbol side q tp sl).st.trades = st.trades ∨
      ∃ t, get_active_trade st.trades (normSymbol symbol) = some t ∧
        (open_position env st symbol side q tp sl).st.trades =
          close_trade_in_db st.trades t.id) := by
  unfold open_position at herr ⊢
  by_cases hg : guardFires st.trades (normSymbol symbol) side = true
  · rw [if_pos hg] at herr; cases herr
  · rw [if_neg hg] at herr ⊢
    cases hA : get_active_trade st.trades (normSymbol symbol) with
    | none =>
      rw [hA] at herr
      dsimp only at herr ⊢
      rcases openEntry_shape env st [] symbol side q tp sl with ⟨_, ht, hn⟩ | ⟨hf, _⟩
      · exact ⟨hn, Or.inl ht⟩
      · rw [hf] at herr; cases herr
    | some t =>
      rw [hA] at herr
      dsimp only at herr ⊢
      by_cases hsame : (t.signal == side) = true
      · rw [if_pos hsame] at herr; cases herr
      · rw [if_neg hsame] at herr ⊢
        by_cases hce : (close_position env st symbol).err = true
        · rw [if_pos hce] at herr ⊢
          rcases close_position_shape env st symbol with ⟨ht, hn⟩ | ⟨t', _, herr', _, _⟩
          · exact ⟨hn, Or.inl ht⟩
          · rw [herr'] at hce; cases hce
        · rw [if_neg hce] at herr ⊢
          have hcc := close_position_success env st symbol t hA (by simpa using hce)
          have hcn : (close_position env st symbol).st.nextId = st.nextId := by
            rcases close_position_shape env st symbol with ⟨_, hn⟩ | ⟨_, _, _, _, hn⟩ <;>
              exact hn
          rcases openEntry_shape env (close_position env st symbol).st
              (close_position env st symbol).calls symbol side q tp sl with
            ⟨_, ht, hn⟩ | ⟨hf, _⟩
          · rw [ht, hcc]
            exact ⟨by rw [hn, hcn], Or.inr ⟨t, rfl, rfl⟩⟩
          · rw [hf] at herr; cases herr

theorem C9_no_partial_row_witness :
    (open_position envFail3 wStActiveSell "EUR/USD" "buy" 3 none none).st.nextId =
      wStActiveSell.nextId ∧
    ((open_position envFail3 wStActiveSell "EUR/USD" "buy" 3 none none).st.trades =
        wStActiveSell.trades ∨
      ∃ t, get_active_trade wStActiveSell.trades (normSymbol "EUR/USD") = some t ∧
        (open_position envFail3 wStActiveSell "EUR/USD" "buy" 3 none none).st.trades =
          close_trade_in_db wStActiveSell.trades t.id) :=
  C9_no_partial_row envFail3 wStActiveSell "EUR/USD" "buy" 3 none none (by decide)

/-! ### Claim C10: falsy take-profit / stop-loss targets -/

theorem truthy_of_falsy (o : Option ℚ) (h : o = none ∨ o = some 0) :
    truthy o = false := by
  rcases h with rfl | rfl <;> simp [truthy]

theorem placeOptLimit_falsy (env : Env) (st : St) (calls : List GCall)
    (forex : Bool) (act : String) (qty : ℚ) (o : Option ℚ)
    (h : truthy o = false) :
    placeOptLimit env st calls forex act qty o = ⟨st, calls, none, false⟩ := by
  unfold placeOptLimit
  rw [if_neg (by simp [h])]

theorem close_trade_in_db_length (ts : List Trade) (tid : Nat) :
    (close_trade_in_db ts tid).length = ts.length := by
  simp [close_trade_in_db]

/-- With a falsy `tp`, the open tail behaves — in gateway calls and
outcome — exactly as with `tp` absent, and any row it appends carries no
TP order id. -/
theorem openEntry_tp_falsy (env : Env) (st : St) (acc : List GCall)
    (symbol side : String) (q : ℚ) (tp sl : Option ℚ)
    (h : truthy tp = false) :
    ((openEntry env st acc symbol side q tp sl).calls =
        (openEntry env st acc symbol side q none sl).calls ∧
      (openEntry env st acc symbol side q tp sl).err =
        (openEntry env st acc symbol side q none sl).err) ∧
    (((openEntry env st acc symbol side q tp sl).err = true ∧
        (openEntry env st acc symbol side q tp sl).st.trades = st.trades) ∨
      ∃ row, (openEntry env st acc symbol side q tp sl).st.trades =
          st.trades ++ [row] ∧ row.tpOrderId = none) := by
  unfold openEntry
  by_cases h1 : env st.nextOrderId = true
  · rw [if_pos h1, if_pos h1]
    exact ⟨⟨rfl, rfl⟩, Or.inl ⟨rfl, rfl⟩⟩
  · rw [if_neg h1, if_neg h1]
    dsimp only
    rw [placeOptLimit_falsy env _ _ _ _ _ tp h,
      placeOptLimit_falsy env _ _ _ _ _ none rfl]
    rcases placeOptLimit_cases env { st with nextOrderId := st.nextOrderId + 1 }
        (acc ++ [GCall.placeMarket (hasSlash symbol) (entryAction side) q])
        (hasSlash symbol) (exitAction side) q sl with h3 | ⟨pr3, h3⟩ | ⟨pr3, h3⟩ <;>
      rw [h3]
    · exact ⟨⟨rfl, rfl⟩, Or.inr ⟨_, rfl, rfl⟩⟩
    · exact ⟨⟨rfl, rfl⟩, Or.inl ⟨rfl, rfl⟩⟩
    · exact ⟨⟨rfl, rfl⟩, Or.inr ⟨_, rfl, rfl⟩⟩

/-- With a falsy `sl`, the open tail behaves — in gateway calls and
outcome — exactly as with `sl` absent, and any row it appends carries no
SL order id. -/
theorem openEntry_sl_falsy (env : Env) (st : St) (acc : List GCall)
    (symbol side : String) (q : ℚ) (tp sl : Option ℚ)
    (h : truthy sl = false) :
    ((openEntry env st acc symbol side q tp sl).calls =
        (openEntry env st acc symbol side q tp none).calls ∧
      (openEntry env st acc symbol side q tp sl).err =
        (openEntry env st acc symbol side q tp none).err) ∧
    (((openEntry env st acc symbol side q tp sl).err = true ∧
        (openEntry env st acc symbol side q tp sl).st.trades = st.trades) ∨
      ∃ row, (openEntry env st acc symbol side q tp sl).st.trades =
          st.trades ++ [row] ∧ row.slOrderId = none) := by
  unfold openEntry
  by_cases h1 : env st.nextOrderId = true
  · rw [if_pos h1, if_pos h1]
    exact ⟨⟨rfl, rfl⟩, Or.inl ⟨rfl, rfl⟩⟩
  · rw [if_neg h1, if_neg h1]
    dsimp only
    rcases placeOptLimit_cases env { st with nextOrderId := st.nextOrderId + 1 }
        (acc ++ [GCall.placeMarket (hasSlash symbol) (entryAction side) q])
        (hasSlash symbol) (exitAction side) q tp with h2 | ⟨pr2, h2⟩ | ⟨pr2, h2⟩ <;>
      rw [h2]
    · rw [placeOptLimit_falsy env _ _ _ _ _ sl h,
        placeOptLimit_falsy env _ _ _ _ _ none rfl]
      exact ⟨⟨rfl, rfl⟩, Or.inr ⟨_, rfl, rfl⟩⟩
    · exact ⟨⟨rfl, rfl⟩, Or.inl ⟨rfl, rfl⟩⟩
    · rw [placeOptLimit_falsy env _ _ _ _ _ sl h,
        placeOptLimit_falsy env _ _ _ _ _ none rfl]
      exact ⟨⟨rfl, rfl⟩, Or.inr ⟨_, rfl, rfl⟩⟩

/-- C10: an Open whose `takeProfit` (respectively `stopLoss`) argument is
0 or absent places no corresponding resting exit order — the gateway
calls and the outcome are identical to the run without that target — and
any journal row the call creates records the corresponding order id as
`none`. -/
theorem C10_falsy_exit_targets (env : Env) (st : St) (symbol side : String)
    (q : ℚ) (tp sl : Option ℚ) :
    ((tp = none ∨ tp = some 0) →
      ((open_position env st symbol side q tp sl).calls =
          (open_position env st symbol side q none sl).calls ∧
        (open_position env st symbol side q tp sl).err =
          (open_position env st symbol side q none sl).err) ∧
      ∀ row : Trade,
        (open_position env st symbol side q tp sl).st.trades.length =
          st.trades.length + 1 →
        (open_position env st symbol side q tp sl).st.trades.getLast? = some row →
        row.tpOrderId = none) ∧
    ((sl = none ∨ sl = some 0) →
      ((open_position env st symbol side q tp sl).calls =
          (open_position env st symbol side q tp none).calls ∧
        (open_position env st symbol side q tp sl).err =
          (open_position env st symbol side q tp none).err) ∧
      ∀ row : Trade,
        (open_position env st symbol side q tp sl).st.trades.length =
          st.trades.length + 1 →
        (open_position env st symbol side q tp sl).st.trades.getLast? = some row →
        row.slOrderId = none) := by
  constructor
  · intro hfal
    have htp := truthy_of_falsy tp hfal
    unfold open_position
    by_cases hg : guardFires st.trades (normSymbol symbol) side = true
    · rw [if_pos hg, if_pos hg]
      exact ⟨⟨rfl, rfl⟩, fun row hlen _ => by simp at hlen⟩
    · rw [if_neg hg, if_neg hg]
      cases hA : get_active_trade st.trades (normSymbol symbol) with
      | none =>
        dsimp only
        obtain ⟨hce, hrow⟩ := openEntry_tp_falsy env st [] symbol side q tp sl htp
        refine ⟨hce, fun row hlen hlast => ?_⟩
        rcases hrow with ⟨_, ht⟩ | ⟨row', ht, hid⟩
        · rw [ht] at hlen; simp at hlen
        · rw [ht, List.getLast?_concat] at hlast
          cases hlast
          exact hid
      | some t =>
        dsimp only
        by_cases hsame : (t.signal == side) = true
        · rw [if_pos hsame, if_pos hsame]
          exact ⟨⟨rfl, rfl⟩, fun row hlen _ => by simp at hlen⟩
        · rw [if_neg hsame, if_neg hsame]
          by_cases hcerr : (close_position env st symbol).err = true
          · rw [if_pos hcerr, if_pos hcerr]
            refine ⟨⟨rfl, rfl⟩, fun row hlen _ => ?_⟩
            rcases close_position_shape env st symbol with ⟨ht, _⟩ | ⟨t', _, _, ht, _⟩ <;>
              rw [ht] at hlen
            · simp at hlen
            · rw [close_trade_in_db_length] at hlen
              simp at hlen
          · rw [if_neg hcerr, if_neg hcerr]
            obtain ⟨hce, hrow⟩ := openEntry_tp_falsy env (close_position env st symbol).st
              (close_position env st symbol).calls symbol side q tp sl htp
            refine ⟨hce, fun row hlen hlast => ?_⟩
            have hclen : (close_position env st symbol).st.trades.length =
                st.trades.length := by
              rcases close_position_shape env st symbol with ⟨ht, _⟩ | ⟨t', _, _, ht, _⟩ <;>
                rw [ht]
              rw [close_trade_in_db_length]
            rcases hrow with ⟨_, ht⟩ | ⟨row', ht, hid⟩
            · rw [ht, hclen] at hlen; simp at hlen
            · rw [ht, List.getLast?_concat] at hlast
              cases hlast
              exact hid
  · intro hfal
    have hsl := truthy_of_falsy sl hfal
    unfold open_position
    by_cases hg : guardFires st.trades (normSymbol symbol) side = true
    · rw [if_pos hg, if_pos hg]
      exact ⟨⟨rfl, rfl⟩, fun row hlen _ => by simp at hlen⟩
    · rw [if_neg hg, if_neg hg]
      cases hA : get_active_trade st.trades (normSymbol symbol) with
      | none =>
        dsimp only
        obtain ⟨hce, hrow⟩ := openEntry_sl_falsy env st [] symbol side q tp sl hsl
        refine ⟨hce, fun row hlen hlast => ?_⟩
        rcases hrow with ⟨_, ht⟩ | ⟨row', ht, hid⟩
        · rw [ht] at hlen; simp at hlen
        · rw [ht, List.getLast?_concat] at hlast
          cases hlast
          exact hid
      | some t =>
        dsimp only
        by_cases hsame : (t.signal == side) = true
        · rw [if_pos hsame, if_pos hsame]
          exact ⟨⟨rfl, rfl⟩, fun row hlen _ => by simp at hlen⟩
        · rw [if_neg hsame, if_neg hsame]
          by_cases hcerr : (close_position env st symbol).err = true
          · rw [if_pos hcerr, if_pos hcerr]
            refine ⟨⟨rfl, rfl⟩, fun row hlen _ => ?_⟩
            rcases close_position_shape env st symbol with ⟨ht, _⟩ | ⟨t', _, _, ht, _⟩ <;>
              rw [ht] at hlen
            · simp at hlen
            · rw [close_trade_in_db_length] at hlen
              simp at hlen
          · rw [if_neg hcerr, if_neg hcerr]
            obtain ⟨hce, hrow⟩ := openEntry_sl_falsy env (close_position env st symbol).st
              (close_position env st symbol).calls symbol side q tp sl hsl
            refine ⟨hce, fun row hlen hlast => ?_⟩
            have hclen : (close_position env st symbol).st.trades.length =
                st.trades.length := by
              rcases close_position_shape env st symbol with ⟨ht, _⟩ | ⟨t', _, _, ht, _⟩ <;>
                rw [ht]
              rw [close_trade_in_db_length]
            rcases hrow with ⟨_, ht⟩ | ⟨row', ht, hid⟩
            · rw [ht, hclen] at hlen; simp at hlen
            · rw [ht, List.getLast?_concat] at hlast
              cases hlast
              exact hid

theorem C10_falsy_exit_targets_witness :
    ((open_position envOk initSt "EUR/USD" "buy" 1000 (some 0) (some 0)).calls =
        (open_position envOk initSt "EUR/USD" "buy" 1000 none (some 0)).calls ∧
      (open_position envOk initSt "EUR/USD" "buy" 1000 (some 0) (some 0)).err =
        (open_position envOk initSt "EUR/USD" "buy" 1000 none (some 0)).err) ∧
    (newTradeRow 1 "EURUSD" "buy" 1000 (some 1) (some 0) none (some 0) none).tpOrderId =
      none ∧
    (newTradeRow 1 "EURUSD" "buy" 1000 (some 1) (some 0) none (some 0) none).slOrderId =
      none := by
  obtain ⟨hA, hB⟩ :=
    C10_falsy_exit_targets envOk initSt "EUR/USD" "buy" 1000 (some 0) (some 0)
  refine ⟨(hA (Or.inr rfl)).1, ?_, ?_⟩
  · exact (hA (Or.inr rfl)).2
      (newTradeRow 1 "EURUSD" "buy" 1000 (some 1) (some 0) none (some 0) none)
      (by decide) (by decide)
  · exact (hB (Or.inr rfl)).2
      (newTradeRow 1 "EURUSD" "buy" 1000 (some 1) (some 0) none (some 0) none)
      (by decide) (by decide)

end Bridge
